import Mathlib

/-!
Shallow embedding of the task_flow_prod core (task / time-entry / comment /
activity services) and proofs of the specification claims.

Timestamps are modelled as natural numbers of milliseconds (JS
`Date.getTime()`), repositories as in-memory lists of entities (the query
semantics follow the Firestore repository implementations and the mock
repositories used by the unit tests), and `randomUUID` as a fresh-id counter
threaded through the state.  Every service operation is a function
`St → inputs → Except Err result × St`: the returned state is the store after
the operation, also on the error paths (the services never roll back).
-/

namespace TaskFlow

/-- Milliseconds since the epoch, as returned by JS `Date.getTime()`. -/
abbrev Time := Nat

/-- Task status enum from `domain/enums/TaskStatus`. -/
inductive TaskStatus
  | TODO
  | IN_PROGRESS
  | DONE
deriving DecidableEq, Repr

/-- Task priority enum from `domain/enums/Priority`. -/
inductive TaskPriority
  | LOW
  | MEDIUM
  | HIGH
deriving DecidableEq, Repr

/-- User role enum from `domain/enums/Role`. -/
inductive Role
  | ADMIN
  | MEMBER
deriving DecidableEq, Repr

/-- Activity type enum from `domain/entities/Activity.ts`. -/
inductive ActivityType
  | TASK_CREATED
  | TASK_ASSIGNED
  | TASK_STATUS_CHANGED
  | TASK_PRIORITY_CHANGED
  | TASK_DUE_DATE_CHANGED
  | TASK_TAGS_CHANGED
  | TIMER_STARTED
  | TIMER_STOPPED
  | COMMENT_ADDED
deriving DecidableEq, Repr

/-- `Task` entity (`domain/entities/Task` via `ValueObject.ts` part). -/
structure Task where
  id : String
  title : String
  description : String
  status : TaskStatus
  createdByAdminId : String
  assigneeUserId : Option String
  priority : TaskPriority
  dueDate : Option Time
  tags : List String
  createdAt : Time
  updatedAt : Time
deriving DecidableEq, Repr

/-- `TimeEntry` entity (`domain/entities/TimeEntry.ts`).  `durationSeconds`
is a JS number, modelled as `Int` so that zero and negative stored durations
are representable (the reports service filters them out). -/
structure TimeEntry where
  id : String
  taskId : String
  userId : String
  startTime : Time
  endTime : Option Time
  durationSeconds : Option Int
  createdAt : Time
  updatedAt : Time
deriving DecidableEq, Repr

/-- `Activity` entity (`domain/entities/Activity.ts`). -/
structure Activity where
  id : String
  taskId : String
  type : ActivityType
  message : String
  actorUserId : String
  createdAt : Time
  updatedAt : Time
deriving DecidableEq, Repr

/-- `Comment` entity (from the `Comment extends BaseEntity` source part). -/
structure Comment where
  id : String
  taskId : String
  userId : String
  text : String
  createdAt : Time
  updatedAt : Time
deriving DecidableEq, Repr

/-- Error taxonomy of the spec (§7).  The services throw plain JS `Error`s
whose kind is distinguished by the message; each constructor carries the
exact message thrown by the corresponding source site. -/
inductive Err
  | notFound (msg : String)
  | forbidden (msg : String)
  | conflict (msg : String)
  | validation (msg : String)
  | internal (msg : String)
deriving DecidableEq, Repr

/-- Decidable equality of `Except` results, used to evaluate the concrete
witnesses and counterexamples. -/
instance {ε α : Type} [DecidableEq ε] [DecidableEq α] : DecidableEq (Except ε α)
  | .error e, .error f =>
    if h : e = f then .isTrue (by rw [h]) else .isFalse (by simp [h])
  | .error _, .ok _ => .isFalse (by simp)
  | .ok _, .error _ => .isFalse (by simp)
  | .ok a, .ok b =>
    if h : a = b then .isTrue (by rw [h]) else .isFalse (by simp [h])

/-- Combined in-memory store backing the repository singletons, plus the
fresh-id counter standing in for `randomUUID`. -/
structure St where
  tasks : List Task
  entries : List TimeEntry
  comments : List Comment
  activities : List Activity
  nextId : Nat
deriving DecidableEq, Repr

/-- Fresh id generation (models `randomUUID()`). -/
def genId (st : St) : String × St :=
  (toString st.nextId, { st with nextId := st.nextId + 1 })

/-- `taskRepo.findById` (Firestore doc lookup / mock `Map.get`). -/
def findTask (st : St) (id : String) : Option Task :=
  st.tasks.find? (fun t => t.id == id)

/-- `timeEntryRepo.findById`. -/
def findTimeEntry (st : St) (id : String) : Option TimeEntry :=
  st.entries.find? (fun e => e.id == id)

/-- Predicate for an Active entry of a user, as queried by
`findActiveByUser` (`userId == u` and `endTime == null`). -/
def isActiveFor (u : String) (e : TimeEntry) : Bool :=
  e.userId == u && e.endTime == none

/-- `timeEntryRepo.findActiveByUser` (Firestore `where userId == u`,
`where endTime == null`, `limit 1`; mock `entries.find`). -/
def findActiveByUser (st : St) (u : String) : Option TimeEntry :=
  st.entries.find? (isActiveFor u)

/-- Partial patch for a `TimeEntry` (`Partial<TimeEntry>`): `none` is an
absent (undefined) field, `some v` a present one. -/
structure TimeEntryPatch where
  startTime : Option Time := none
  endTime : Option (Option Time) := none
  durationSeconds : Option (Option Int) := none
deriving DecidableEq, Repr

/-- Field merge performed by `timeEntryRepo.update`: present patch fields
overwrite, `updatedAt` is refreshed to the mutation time. -/
def applyTimeEntryPatch (e : TimeEntry) (p : TimeEntryPatch) (now : Time) : TimeEntry :=
  { e with
    startTime := p.startTime.getD e.startTime
    endTime := p.endTime.getD e.endTime
    durationSeconds := p.durationSeconds.getD e.durationSeconds
    updatedAt := now }

/-- `timeEntryRepo.update(id, patch)`: `null` on a missing id, otherwise
the patched entry is stored and returned. -/
def updateTimeEntry (st : St) (id : String) (p : TimeEntryPatch) (now : Time) :
    Option TimeEntry × St :=
  match st.entries.find? (fun e => e.id == id) with
  | none => (none, st)
  | some e =>
    let e' := applyTimeEntryPatch e p now
    (some e', { st with entries := st.entries.map (fun x => if x.id == id then e' else x) })

/-- `activity.service.createActivity`: append an `Activity` with a fresh id.
No RBAC, pure append. -/
def createActivity (st : St) (taskId : String) (type : ActivityType)
    (message : String) (actorUserId : String) (now : Time) : Activity × St :=
  let (i, st1) := genId st
  let a : Activity :=
    { id := i, taskId := taskId, type := type, message := message
      actorUserId := actorUserId, createdAt := now, updatedAt := now }
  (a, { st1 with activities := st1.activities ++ [a] })

/-- `ensureStartBeforeEnd` from `timeEntryValidators.ts`: throws
`ValidationError` when `start >= end`. -/
def ensureStartBeforeEnd (start fin : Time) : Except Err Unit :=
  if start ≥ fin then .error (.validation "Start time must be before end time")
  else .ok ()

/-- `computeDurationSeconds` from `timeEntryValidators.ts`:
`floor((end - start) / 1000)` after the start-before-end guard. -/
def computeDurationSeconds (start fin : Time) : Except Err Int :=
  match ensureStartBeforeEnd start fin with
  | .error e => .error e
  | .ok _ => .ok (((fin - start) / 1000 : Nat) : Int)

/-- `timeEntry.service.startTimeEntry(userId, taskId)`. -/
def startTimeEntry (st : St) (userId taskId : String) (now : Time) :
    Except Err TimeEntry × St :=
  match findTask st taskId with
  | none => (.error (.notFound "Task not found"), st)
  | some task =>
    if task.assigneeUserId ≠ some userId then
      (.error (.forbidden "Forbidden: You can only start timer for tasks assigned to you"), st)
    else
      match findActiveByUser st userId with
      | some _ =>
        (.error (.conflict "You already have an active time entry. Please stop it first."), st)
      | none =>
        let (i, st1) := genId st
        let timeEntry : TimeEntry :=
          { id := i, taskId := taskId, userId := userId, startTime := now
            endTime := none, durationSeconds := none, createdAt := now, updatedAt := now }
        let st2 := { st1 with entries := st1.entries ++ [timeEntry] }
        let (_, st3) := createActivity st2 taskId .TIMER_STARTED "Started timer" userId now
        (.ok timeEntry, st3)

/-- `timeEntry.service.stopTimeEntry(userId, timeEntryId)`. -/
def stopTimeEntry (st : St) (userId timeEntryId : String) (now : Time) :
    Except Err (Option TimeEntry) × St :=
  match findTimeEntry st timeEntryId with
  | none => (.ok none, st)
  | some timeEntry =>
    if timeEntry.userId ≠ userId then
      (.error (.forbidden "Forbidden: You can only stop your own time entries"), st)
    else if timeEntry.endTime ≠ none then
      (.error (.conflict "Time entry is already stopped"), st)
    else
      match computeDurationSeconds timeEntry.startTime now with
      | .error e => (.error e, st)
      | .ok durationSeconds =>
        let (updated, st1) :=
          updateTimeEntry st timeEntryId
            { endTime := some (some now), durationSeconds := some (some durationSeconds) } now
        match updated with
        | none => (.ok none, st1)
        | some u =>
          let mins := durationSeconds / 60
          let secs := durationSeconds % 60
          let msg := "Stopped timer (" ++ toString mins ++ "m " ++ toString secs ++ "s)"
          let (_, st2) := createActivity st1 timeEntry.taskId .TIMER_STOPPED msg userId now
          (.ok (some u), st2)

/-- `timeEntry.service.getActiveTimeEntry(userId)`: pure lookup. -/
def getActiveTimeEntry (st : St) (userId : String) : Option TimeEntry :=
  findActiveByUser st userId

/-- Partial patch for a `Task` (the `patch` argument of `updateTaskAsAdmin`
and `Partial<Task>` of the repository).  An outer `none` is an absent
(undefined) field; for the nullable fields an inner `none` is an explicit
`null`. -/
structure TaskPatch where
  title : Option String := none
  description : Option String := none
  status : Option TaskStatus := none
  assigneeUserId : Option (Option String) := none
  priority : Option TaskPriority := none
  dueDate : Option (Option Time) := none
  tags : Option (List String) := none
deriving DecidableEq, Repr

/-- Field merge performed by `taskRepo.update`: present patch fields
overwrite (explicit `null` clears a nullable field), `updatedAt` is
refreshed. -/
def applyTaskPatch (t : Task) (p : TaskPatch) (now : Time) : Task :=
  { t with
    title := p.title.getD t.title
    description := p.description.getD t.description
    status := p.status.getD t.status
    assigneeUserId := p.assigneeUserId.getD t.assigneeUserId
    priority := p.priority.getD t.priority
    dueDate := p.dueDate.getD t.dueDate
    tags := p.tags.getD t.tags
    updatedAt := now }

/-- `taskRepo.update(id, patch)`: `null` on a missing id, otherwise the
patched task is stored and returned. -/
def updateTask (st : St) (id : String) (p : TaskPatch) (now : Time) :
    Option Task × St :=
  match findTask st id with
  | none => (none, st)
  | some t =>
    let t' := applyTaskPatch t p now
    (some t', { st with tasks := st.tasks.map (fun x => if x.id == id then t' else x) })

/-- Rendering of `TaskStatus` enum values (their JS string values). -/
def statusString : TaskStatus → String
  | .TODO => "TODO"
  | .IN_PROGRESS => "IN_PROGRESS"
  | .DONE => "DONE"

/-- Rendering of `Priority` enum values (their JS string values). -/
def priorityString : TaskPriority → String
  | .LOW => "LOW"
  | .MEDIUM => "MEDIUM"
  | .HIGH => "HIGH"

/-- Condition `patch.status !== undefined && patch.status !== existing.status`. -/
def statusChanged (patch : TaskPatch) (existing : Task) : Bool :=
  match patch.status with
  | some s => s != existing.status
  | none => false

/-- Condition `patch.assigneeUserId !== undefined && patch.assigneeUserId !==
existing.assigneeUserId`. -/
def assigneeChanged (patch : TaskPatch) (existing : Task) : Bool :=
  match patch.assigneeUserId with
  | some a => a != existing.assigneeUserId
  | none => false

/-- Condition `patch.priority !== undefined && patch.priority !==
existing.priority`. -/
def priorityChanged (patch : TaskPatch) (existing : Task) : Bool :=
  match patch.priority with
  | some p => p != existing.priority
  | none => false

/-- Condition `patch.tags !== undefined && JSON.stringify(patch.tags) !==
JSON.stringify(existing.tags)`.  `JSON.stringify` on arrays of strings is
injective, so the comparison is order-sensitive list equality. -/
def tagsChanged (patch : TaskPatch) (existing : Task) : Bool :=
  match patch.tags with
  | some tg => tg != existing.tags
  | none => false

/-- Message `patch.assigneeUserId ? "Assigned to user ..." : "Unassigned"`.
The JS truthiness test sends both `null` and the empty string to
"Unassigned". -/
def assigneeMsg (a : Option String) : String :=
  match a with
  | some uid => if uid == "" then "Unassigned" else "Assigned to user " ++ uid
  | none => "Unassigned"

/-- Message for the due-date activity: `patch.dueDate ?
patch.dueDate.toISOString().split("T")[0] : "None"`.  The calendar-date
rendering of a timestamp is kept opaque. -/
def dueDateMsg (d : Option Time) : String :=
  match d with
  | some t => "Due date set to day-of " ++ toString t
  | none => "Due date set to None"

/-- One conditional activity emission step: `if (cond) { await
createActivity(taskId, type, message, actorUserId); }`. -/
def emitIf (b : Bool) (st : St) (taskId : String) (type : ActivityType)
    (message : String) (actorUserId : String) (now : Time) : St :=
  if b then (createActivity st taskId type message actorUserId now).2 else st

/-- `task.service.updateTaskAsAdmin(taskId, patch, actorUserId)`. -/
def updateTaskAsAdmin (st : St) (taskId : String) (patch : TaskPatch)
    (actorUserId : String) (now : Time) : Except Err (Option Task) × St :=
  match findTask st taskId with
  | none => (.ok none, st)
  | some existing =>
    let (updated, st1) := updateTask st taskId patch now
    match updated with
    | none => (.ok none, st1)
    | some u =>
      let st2 := emitIf (statusChanged patch existing) st1 taskId .TASK_STATUS_CHANGED
        ("Status changed to " ++ statusString (patch.status.getD existing.status)) actorUserId now
      let st3 := emitIf (assigneeChanged patch existing) st2 taskId .TASK_ASSIGNED
        (assigneeMsg (patch.assigneeUserId.getD none)) actorUserId now
      let st4 := emitIf (priorityChanged patch existing) st3 taskId .TASK_PRIORITY_CHANGED
        ("Priority changed to " ++ priorityString (patch.priority.getD existing.priority)) actorUserId now
      let st5 := emitIf patch.dueDate.isSome st4 taskId .TASK_DUE_DATE_CHANGED
        (dueDateMsg (patch.dueDate.getD none)) actorUserId now
      let st6 := emitIf (tagsChanged patch existing) st5 taskId .TASK_TAGS_CHANGED
        "Tags updated" actorUserId now
      (.ok (some u), st6)

/-- `task.service.completeTask(taskId, memberId)`: stop the member's active
entry when it is on this task, then mark the task DONE and log one
TASK_STATUS_CHANGED activity. -/
def completeTask (st : St) (taskId memberId : String) (now : Time) :
    Except Err (Task × Option TimeEntry) × St :=
  match findTask st taskId with
  | none => (.error (.notFound "Task not found"), st)
  | some task =>
    if task.assigneeUserId ≠ some memberId then
      (.error (.forbidden "Forbidden: You can only complete tasks assigned to you"), st)
    else
      let stopRes : Except Err (Option TimeEntry) × St :=
        match getActiveTimeEntry st memberId with
        | some activeEntry =>
          if activeEntry.taskId == taskId then stopTimeEntry st memberId activeEntry.id now
          else (.ok none, st)
        | none => (.ok none, st)
      match stopRes with
      | (.error e, st1) => (.error e, st1)
      | (.ok stoppedTimeEntry, st1) =>
        let (updated, st2) := updateTask st1 taskId { status := some .DONE } now
        match updated with
        | none => (.error (.internal "Failed to update task"), st2)
        | some u =>
          let (_, st3) := createActivity st2 taskId .TASK_STATUS_CHANGED "Task completed" memberId now
          (.ok (u, stoppedTimeEntry), st3)

/-- Sort key choice of `searchAndFilter`. -/
inductive SortField
  | dueDate
  | createdAt
deriving DecidableEq, Repr

/-- Sort direction of `searchAndFilter`. -/
inductive SortDirection
  | asc
  | desc
deriving DecidableEq, Repr

/-- The dynamic `filters` object of the task listing endpoints.  A field set
to `none` is absent from the JS object. -/
structure TaskFilters where
  status : Option TaskStatus := none
  priority : Option TaskPriority := none
  assigneeUserId : Option String := none
  tag : Option String := none
  searchQuery : Option String := none
  sortBy : Option SortField := none
  sortOrder : Option SortDirection := none
deriving DecidableEq, Repr

/-- `Object.keys(filters).length > 0`: at least one field present. -/
def TaskFilters.hasAnyKey (f : TaskFilters) : Bool :=
  f.status.isSome || f.priority.isSome || f.assigneeUserId.isSome || f.tag.isSome ||
    f.searchQuery.isSome || f.sortBy.isSome || f.sortOrder.isSome

/-- Stable insertion of one element into a list ordered by `le`. -/
def insertLe (le : α → α → Bool) (x : α) : List α → List α
  | [] => [x]
  | y :: ys => if le x y then x :: y :: ys else y :: insertLe le x ys

/-- Stable sort by `le` (models JS `Array.prototype.sort`, which is stable;
with the comparators used here the result is order-unique anyway). -/
def sortLe (le : α → α → Bool) : List α → List α
  | [] => []
  | x :: xs => insertLe le x (sortLe le xs)

/-- Test that the second character list starts the first one. -/
def startsWithChars : List Char → List Char → Bool
  | _, [] => true
  | [], _ :: _ => false
  | a :: as, b :: bs => a == b && startsWithChars as bs

/-- Substring test on character lists. -/
def hasSubChars : List Char → List Char → Bool
  | [], needle => needle.isEmpty
  | a :: as, needle => startsWithChars (a :: as) needle || hasSubChars as needle

/-- Case-insensitive substring test: `haystack.toLowerCase().includes
(needle.toLowerCase())`. -/
def containsCI (haystack needle : String) : Bool :=
  hasSubChars haystack.toLower.toList needle.toLower.toList

/-- Numeric sort key used by `searchAndFilter`: `dueDate?.getTime() || 0` or
`createdAt?.getTime() || 0` (a missing due date sorts as epoch 0). -/
def sortKey (f : SortField) (t : Task) : Time :=
  match f with
  | .dueDate => t.dueDate.getD 0
  | .createdAt => t.createdAt

/-- Filter block `if (filters.status) { query.where("status", "==", s) }`
of `searchAndFilter`. -/
def stageStatus (f : TaskFilters) (ts : List Task) : List Task :=
  match f.status with
  | some s => ts.filter (fun t => t.status == s)
  | none => ts

/-- Filter block `if (filters.priority)` of `searchAndFilter`. -/
def stagePriority (f : TaskFilters) (ts : List Task) : List Task :=
  match f.priority with
  | some p => ts.filter (fun t => t.priority == p)
  | none => ts

/-- Filter block `if (filters.assigneeUserId)` of `searchAndFilter`: a JS
truthiness test, so the condition is skipped both when the field is absent
and when it is the empty string. -/
def stageAssignee (f : TaskFilters) (ts : List Task) : List Task :=
  match f.assigneeUserId with
  | some a => if a == "" then ts else ts.filter (fun t => t.assigneeUserId == some a)
  | none => ts

/-- Filter block `if (filters.tag) { query.where("tags", "array-contains",
tag) }` of `searchAndFilter` (truthiness test as well). -/
def stageTag (f : TaskFilters) (ts : List Task) : List Task :=
  match f.tag with
  | some tg => if tg == "" then ts else ts.filter (fun t => t.tags.contains tg)
  | none => ts

/-- Client-side search block `if (filters.searchQuery)` of
`searchAndFilter`: case-insensitive substring over title or description. -/
def stageSearch (f : TaskFilters) (ts : List Task) : List Task :=
  match f.searchQuery with
  | some q => if q == "" then ts
      else ts.filter (fun t => containsCI t.title q || containsCI t.description q)
  | none => ts

/-- Client-side sorting block `if (filters.sortBy)` of `searchAndFilter`. -/
def stageSort (f : TaskFilters) (ts : List Task) : List Task :=
  match f.sortBy with
  | some sb =>
    match f.sortOrder with
    | some .desc => sortLe (fun a b => sortKey sb b ≤ sortKey sb a) ts
    | _ => sortLe (fun a b => sortKey sb a ≤ sortKey sb b) ts
  | none => ts

/-- `FirestoreTaskRepository.searchAndFilter(filters)`: the filter blocks
applied in source order, then search, then sorting. -/
def searchAndFilter (tasks : List Task) (f : TaskFilters) : List Task :=
  stageSort f (stageSearch f (stageTag f (stageAssignee f (stagePriority f
    (stageStatus f tasks)))))

/-- `taskRepo.listByAssignee(userId)`: `where assigneeUserId == userId`. -/
def listByAssignee (tasks : List Task) (userId : String) : List Task :=
  tasks.filter (fun t => t.assigneeUserId == some userId)

/-- `task.service.listTasksForMember(memberId, filters?)`: spread the
caller's filters, overwrite `assigneeUserId` with the member id, and use
`searchAndFilter` when the caller's filters object is non-empty. -/
def listTasksForMember (tasks : List Task) (memberId : String)
    (filters : Option TaskFilters) : List Task :=
  let memberFilters := { filters.getD {} with assigneeUserId := some memberId }
  match filters with
  | some f => if f.hasAnyKey then searchAndFilter tasks memberFilters
      else listByAssignee tasks memberId
  | none => listByAssignee tasks memberId

/-- `comment.service.createComment(taskId, userId, userRole, text)`.  The
service checks the task and RBAC but performs no validation of `text`. -/
def createComment (st : St) (taskId userId : String) (userRole : Role)
    (text : String) (now : Time) : Except Err Comment × St :=
  match findTask st taskId with
  | none => (.error (.notFound "Task not found"), st)
  | some task =>
    if userRole ≠ .ADMIN ∧ task.assigneeUserId ≠ some userId then
      (.error (.forbidden "Forbidden: You can only comment on tasks assigned to you"), st)
    else
      let (i, st1) := genId st
      let comment : Comment :=
        { id := i, taskId := taskId, userId := userId, text := text
          createdAt := now, updatedAt := now }
      let st2 := { st1 with comments := st1.comments ++ [comment] }
      let (_, st3) := createActivity st2 taskId .COMMENT_ADDED "Added a comment" userId now
      (.ok comment, st3)

/-- JS `String.prototype.trim()`: strip leading and trailing whitespace
(modelled over the character list). -/
def jsTrim (s : String) : String :=
  ⟨((s.data.dropWhile Char.isWhitespace).reverse.dropWhile Char.isWhitespace).reverse⟩

/-- Boundary validation of comment text in `commentController.create`:
reject when the text is empty after trimming (`!text ||
text.trim().length === 0`) or longer than 2000 characters; the service is
then called with the trimmed text. -/
def commentTextBoundaryOk (text : String) : Bool :=
  !((jsTrim text).data.length == 0) && !(2000 < text.data.length)

/-- `timeEntryRepo.listCompletedInRange(from, to)`: `startTime` within
`[from, to]` inclusive at the query, then an in-memory filter to completed
entries (`endTime != null`). -/
def listCompletedInRange (entries : List TimeEntry) (tFrom tTo : Time) : List TimeEntry :=
  (entries.filter (fun e => tFrom ≤ e.startTime && e.startTime ≤ tTo)).filter
    (fun e => e.endTime != none)

/-- One `Map.get(u) || 0` / `Map.set(u, total + d)` step of the aggregation
loop: bump the running total of key `u` by `d`, inserting keys in first-seen
order like a JS `Map`. -/
def bump : List (String × Int) → String → Int → List (String × Int)
  | [], u, d => [(u, d)]
  | (k, v) :: rest, u, d =>
    if k == u then (k, v + d) :: rest else (k, v) :: bump rest u d

/-- Result record of `getTimeTotalsByUser`.  The source serializes `from`
and `to` back as calendar-date strings; the model keeps the timestamps.
Each element of `totals` is a `{userId, totalDurationSeconds}` record,
modelled as a pair. -/
structure TimeReportResult where
  tFrom : Time
  tTo : Time
  totals : List (String × Int)
deriving DecidableEq, Repr

/-- Lexicographic code-point order on character lists (the model of the JS
`localeCompare`-based ascending sort of userIds). -/
def charListLe : List Char → List Char → Bool
  | [], _ => true
  | _ :: _, [] => false
  | a :: as, b :: bs =>
    if a.toNat < b.toNat then true
    else if b.toNat < a.toNat then false
    else charListLe as bs

/-- Ascending string order used to sort report totals by userId. -/
def strLe (a b : String) : Bool := charListLe a.data b.data

/-- One iteration of the aggregation loop of `getTimeTotalsByUser`: add
`durationSeconds` to the user's running total when it is non-null and
positive (`entry.durationSeconds !== null && entry.durationSeconds > 0`). -/
def aggStep (acc : List (String × Int)) (entry : TimeEntry) : List (String × Int) :=
  match entry.durationSeconds with
  | some d => if 0 < d then bump acc entry.userId d else acc
  | none => acc

/-- `reports.service.getTimeTotalsByUser(from, to)`. -/
def getTimeTotalsByUser (entries : List TimeEntry) (tFrom tTo : Time) :
    Except Err TimeReportResult :=
  if tFrom > tTo then
    .error (.validation "Invalid date range: \"from\" date must be before or equal to \"to\" date")
  else
    let timeEntries := listCompletedInRange entries tFrom tTo
    let userTotals := timeEntries.foldl aggStep []
    let totals := sortLe (fun a b => strLe a.1 b.1) userTotals
    .ok { tFrom := tFrom, tTo := tTo, totals := totals }

/-! Claim-side predicates: which entries the report is supposed to count. -/

/-- Positive non-null stored duration. -/
def posDur (e : TimeEntry) : Bool :=
  match e.durationSeconds with
  | some d => decide (0 < d)
  | none => false

/-- Stored duration, defaulting to 0. -/
def durOf (e : TimeEntry) : Int := e.durationSeconds.getD 0

/-- An entry the report must count for the range `[tFrom, tTo]`: Stopped,
started inside the range, with positive duration. -/
def contribInRange (tFrom tTo : Time) (e : TimeEntry) : Bool :=
  (tFrom ≤ e.startTime && e.startTime ≤ tTo) && (e.endTime != none) && posDur e

/-- The total the report must assign to user `u` over `es`. -/
def expectedTotal (es : List TimeEntry) (tFrom tTo : Time) (u : String) : Int :=
  ((es.filter (fun e => e.userId == u && contribInRange tFrom tTo e)).map durOf).sum

/-- Whether user `u` has at least one countable entry. -/
def hasContrib (es : List TimeEntry) (tFrom tTo : Time) (u : String) : Bool :=
  es.any (fun e => e.userId == u && contribInRange tFrom tTo e)

/-! Helper lemmas about the sorting and aggregation machinery. -/

theorem mem_insertLe {α : Type} {le : α → α → Bool} {x a : α} {l : List α} :
    a ∈ insertLe le x l ↔ a = x ∨ a ∈ l := by
  induction l with
  | nil => simp [insertLe]
  | cons y ys ih =>
    simp only [insertLe]
    split
    · simp
    · simp only [List.mem_cons, ih]
      tauto

theorem mem_sortLe {α : Type} {le : α → α → Bool} {a : α} {l : List α} :
    a ∈ sortLe le l ↔ a ∈ l := by
  induction l with
  | nil => simp [sortLe]
  | cons x xs ih => simp [sortLe, mem_insertLe, ih]

theorem perm_insertLe {α : Type} (le : α → α → Bool) (x : α) (l : List α) :
    (insertLe le x l).Perm (x :: l) := by
  induction l with
  | nil => simp [insertLe]
  | cons y ys ih =>
    simp only [insertLe]
    split
    · exact List.Perm.refl _
    · exact (ih.cons y).trans (List.Perm.swap x y ys)

theorem perm_sortLe {α : Type} (le : α → α → Bool) (l : List α) :
    (sortLe le l).Perm l := by
  induction l with
  | nil => simp [sortLe]
  | cons x xs ih =>
    exact (perm_insertLe le x (sortLe le xs)).trans (ih.cons x)

theorem pairwise_insertLe {α : Type} {le : α → α → Bool}
    (htot : ∀ a b, le a b = false → le b a = true)
    (htrans : ∀ a b c, le a b = true → le b c = true → le a c = true)
    {x : α} {l : List α} (h : l.Pairwise (fun a b => le a b = true)) :
    (insertLe le x l).Pairwise (fun a b => le a b = true) := by
  induction l with
  | nil => simp [insertLe]
  | cons y ys ih =>
    rcases List.pairwise_cons.mp h with ⟨hy, hys⟩
    by_cases hxy : le x y = true
    · simp only [insertLe, hxy, if_true]
      refine List.pairwise_cons.mpr ⟨?_, h⟩
      intro z hz
      rcases List.mem_cons.mp hz with rfl | hz
      · exact hxy
      · exact htrans x y z hxy (hy z hz)
    · have hxy' : le x y = false := by
        cases hle : le x y
        · rfl
        · exact absurd hle hxy
      simp only [insertLe, hxy', Bool.false_eq_true, if_false]
      refine List.pairwise_cons.mpr ⟨?_, ih hys⟩
      intro z hz
      rcases mem_insertLe.mp hz with hzx | hz
      · rw [hzx]; exact htot x y hxy'
      · exact hy z hz

theorem pairwise_sortLe {α : Type} {le : α → α → Bool}
    (htot : ∀ a b, le a b = false → le b a = true)
    (htrans : ∀ a b c, le a b = true → le b c = true → le a c = true)
    (l : List α) : (sortLe le l).Pairwise (fun a b => le a b = true) := by
  induction l with
  | nil => simp [sortLe]
  | cons x xs ih => exact pairwise_insertLe htot htrans ih

theorem charListLe_total : ∀ x y, charListLe x y = false → charListLe y x = true := by
  intro x
  induction x with
  | nil => intro y h; simp [charListLe] at h
  | cons a as ih =>
    intro y h
    cases y with
    | nil => simp [charListLe]
    | cons b bs =>
      simp only [charListLe] at h ⊢
      by_cases h1 : a.toNat < b.toNat
      · simp [h1] at h
      · by_cases h2 : b.toNat < a.toNat
        · simp [h2]
        · have h3 : ¬ a.toNat < b.toNat := h1
          simp only [h1, h2, if_false] at h
          simp only [h1, h2, if_false]
          exact ih bs h

theorem charListLe_trans : ∀ x y z, charListLe x y = true → charListLe y z = true →
    charListLe x z = true := by
  intro x
  induction x with
  | nil => intro y z _ _; simp [charListLe]
  | cons a as ih =>
    intro y z hxy hyz
    cases y with
    | nil => simp [charListLe] at hxy
    | cons b bs =>
      cases z with
      | nil => simp [charListLe] at hyz
      | cons c cs =>
        simp only [charListLe] at hxy hyz ⊢
        by_cases hab : a.toNat < b.toNat
        · by_cases hbc : b.toNat < c.toNat
          · simp [Nat.lt_trans hab hbc]
          · by_cases hcb : c.toNat < b.toNat
            · simp [hbc, hcb] at hyz
            · have hac : a.toNat < c.toNat := by omega
              simp [hac]
        · by_cases hba : b.toNat < a.toNat
          · simp [hab, hba] at hxy
          · simp only [hab, hba, if_false] at hxy
            by_cases hbc : b.toNat < c.toNat
            · have hac : a.toNat < c.toNat := by omega
              simp [hac]
            · by_cases hcb : c.toNat < b.toNat
              · simp [hbc, hcb] at hyz
              · simp only [hbc, hcb, if_false] at hyz
                have hac : ¬ a.toNat < c.toNat := by omega
                have hca : ¬ c.toNat < a.toNat := by omega
                simp only [hac, hca, if_false]
                exact ih bs cs hxy hyz

theorem strLe_total : ∀ a b : String × Int, strLe a.1 b.1 = false → strLe b.1 a.1 = true := by
  intro a b h
  exact charListLe_total _ _ h

theorem strLe_trans : ∀ a b c : String × Int, strLe a.1 b.1 = true → strLe b.1 c.1 = true →
    strLe a.1 c.1 = true := by
  intro a b c h1 h2
  exact charListLe_trans _ _ _ h1 h2

/-- Lookup in the association list built by the aggregation loop. -/
def lookupU : List (String × Int) → String → Option Int
  | [], _ => none
  | (k, v) :: rest, u => if k == u then some v else lookupU rest u

/-- Keys of an association list. -/
def keysOf (l : List (String × Int)) : List String := l.map Prod.fst

theorem keysOf_nil : keysOf [] = [] := rfl

theorem keysOf_cons (kv : String × Int) (l : List (String × Int)) :
    keysOf (kv :: l) = kv.1 :: keysOf l := rfl

theorem lookupU_nil (u : String) : lookupU [] u = none := rfl

theorem lookupU_cons (k : String) (v : Int) (l : List (String × Int)) (u : String) :
    lookupU ((k, v) :: l) u = if k == u then some v else lookupU l u := rfl

theorem bump_nil (u : String) (d : Int) : bump [] u d = [(u, d)] := rfl

theorem bump_cons (k : String) (v : Int) (l : List (String × Int)) (u : String) (d : Int) :
    bump ((k, v) :: l) u d =
      if k == u then (k, v + d) :: l else (k, v) :: bump l u d := rfl

theorem lookupU_bump (l : List (String × Int)) (u : String) (d : Int) (w : String) :
    lookupU (bump l u d) w =
      if w = u then some (((lookupU l u).getD 0) + d) else lookupU l w := by
  induction l with
  | nil =>
    by_cases hw : w = u
    · subst hw
      simp [bump_nil, lookupU_cons, lookupU_nil]
    · have h1 : (u == w) = false := by simp [Ne.symm hw]
      simp [bump_nil, lookupU_cons, lookupU_nil, hw, h1]
  | cons kv rest ih =>
    obtain ⟨k, v⟩ := kv
    by_cases hk : k = u
    · subst hk
      rw [bump_cons]
      simp only [beq_self_eq_true, if_true, lookupU_cons]
      by_cases hw : w = k
      · subst hw
        simp [lookupU_cons]
      · have h1 : (k == w) = false := by simp [Ne.symm hw]
        simp [lookupU_cons, h1, hw]
    · have hk' : (k == u) = false := by simp [hk]
      rw [bump_cons, hk']
      simp only [Bool.false_eq_true, if_false, lookupU_cons, hk']
      by_cases hw : w = u
      · subst hw
        have h1 : (k == w) = false := by simp [hk]
        simp [lookupU_cons, h1, ih]
      · by_cases hkw : k = w
        · subst hkw
          simp [lookupU_cons, hw, ih]
        · have h1 : (k == w) = false := by simp [hkw]
          simp [lookupU_cons, h1, hw, ih]

theorem lookupU_eq_none_iff (l : List (String × Int)) (u : String) :
    lookupU l u = none ↔ u ∉ keysOf l := by
  induction l with
  | nil => simp [lookupU_nil, keysOf_nil]
  | cons kv rest ih =>
    obtain ⟨k, v⟩ := kv
    by_cases hk : k = u
    · subst hk
      simp [lookupU_cons, keysOf_cons]
    · have hk' : (k == u) = false := by simp [hk]
      simp [lookupU_cons, keysOf_cons, hk', ih, Ne.symm hk]

theorem keysOf_bump (l : List (String × Int)) (u : String) (d : Int) :
    keysOf (bump l u d) = if u ∈ keysOf l then keysOf l else keysOf l ++ [u] := by
  induction l with
  | nil => simp [bump_nil, keysOf_cons, keysOf_nil]
  | cons kv rest ih =>
    obtain ⟨k, v⟩ := kv
    by_cases hk : k = u
    · subst hk
      rw [bump_cons]
      simp [keysOf_cons]
    · have hk' : (k == u) = false := by simp [hk]
      rw [bump_cons, hk']
      simp only [Bool.false_eq_true, if_false, keysOf_cons, ih]
      by_cases hu : u ∈ keysOf rest
      · simp [hu, Ne.symm hk]
      · simp [hu, Ne.symm hk]

theorem nodup_keysOf_bump (l : List (String × Int)) (u : String) (d : Int)
    (h : (keysOf l).Nodup) : (keysOf (bump l u d)).Nodup := by
  rw [keysOf_bump]
  by_cases hu : u ∈ keysOf l
  · simp [hu, h]
  · simp only [hu, if_false]
    exact List.Nodup.append h (List.nodup_singleton u) (by simpa using hu)

theorem mem_iff_lookupU {l : List (String × Int)} (h : (keysOf l).Nodup)
    {u : String} {s : Int} : (u, s) ∈ l ↔ lookupU l u = some s := by
  induction l with
  | nil => simp [lookupU_nil]
  | cons kv rest ih =>
    obtain ⟨k, v⟩ := kv
    have h' := List.nodup_cons.mp (by rw [keysOf_cons] at h; exact h)
    have hknot : k ∉ keysOf rest := h'.1
    have hrest : (keysOf rest).Nodup := h'.2
    by_cases hk : k = u
    · subst hk
      simp only [lookupU_cons, beq_self_eq_true, if_true, List.mem_cons]
      constructor
      · rintro (hpair | hmem)
        · have hv : v = s := (Prod.ext_iff.mp hpair.symm).2
          simp [hv]
        · exact absurd (by simpa [keysOf] using List.mem_map_of_mem Prod.fst hmem) hknot
      · intro hs
        left
        have : v = s := by simpa using hs
        simp [this]
    · have hk' : (k == u) = false := by simp [hk]
      simp only [lookupU_cons, hk', Bool.false_eq_true, if_false, List.mem_cons]
      rw [← ih hrest]
      constructor
      · rintro (hpair | hmem)
        · exact absurd ((Prod.ext_iff.mp hpair).1.symm) hk
        · exact hmem
      · intro hmem
        right
        exact hmem

/-- Sum of positive stored durations of user `u` over an (already
range-filtered) entry list. -/
def sumPos (es : List TimeEntry) (u : String) : Int :=
  ((es.filter (fun e => e.userId == u && posDur e)).map durOf).sum

/-- Whether user `u` has a positive stored duration in the list. -/
def anyPos (es : List TimeEntry) (u : String) : Bool :=
  es.any (fun e => e.userId == u && posDur e)

theorem lookupU_foldl_aggStep (es : List TimeEntry) :
    ∀ (acc : List (String × Int)) (u : String),
      lookupU (es.foldl aggStep acc) u =
        match lookupU acc u with
        | some v => some (v + sumPos es u)
        | none => if anyPos es u then some (sumPos es u) else none := by
  induction es with
  | nil =>
    intro acc u
    cases hacc : lookupU acc u <;> simp [sumPos, anyPos, hacc]
  | cons e es ih =>
    intro acc u
    rw [List.foldl_cons, ih (aggStep acc e) u]
    cases hdur : e.durationSeconds with
    | none =>
      have hpos : posDur e = false := by simp [posDur, hdur]
      have hstep : aggStep acc e = acc := by simp [aggStep, hdur]
      rw [hstep]
      simp [sumPos, anyPos, List.filter_cons, List.any_cons, hpos]
    | some d =>
      by_cases hd : (0 : Int) < d
      · have hpos : posDur e = true := by simp [posDur, hdur, hd]
        have hstep : aggStep acc e = bump acc e.userId d := by simp [aggStep, hdur, hd]
        rw [hstep, lookupU_bump]
        by_cases hu : u = e.userId
        · have hue : (e.userId == u) = true := by simp [hu]
          have hsum : sumPos (e :: es) u = d + sumPos es u := by
            simp [sumPos, List.filter_cons, hue, hpos, durOf, hdur]
          have hany : anyPos (e :: es) u = true := by
            simp [anyPos, List.any_cons, hue, hpos]
          rw [hsum, hany, if_pos hu, ← hu]
          cases hacc : lookupU acc u with
          | none => simp [hacc]
          | some v => simp [hacc, add_assoc]
        · have hue : (e.userId == u) = false := by
            simp only [beq_eq_false_iff_ne, ne_eq]
            exact fun h => hu h.symm
          have hsum : sumPos (e :: es) u = sumPos es u := by
            simp [sumPos, List.filter_cons, hue]
          have hany : anyPos (e :: es) u = anyPos es u := by
            simp [anyPos, List.any_cons, hue]
          rw [hsum, hany, if_neg hu]
      · have hpos : posDur e = false := by simp [posDur, hdur, hd]
        have hstep : aggStep acc e = acc := by simp [aggStep, hdur, hd]
        rw [hstep]
        simp [sumPos, anyPos, List.filter_cons, List.any_cons, hpos]

theorem nodup_keysOf_foldl_aggStep (es : List TimeEntry) :
    ∀ acc : List (String × Int), (keysOf acc).Nodup →
      (keysOf (es.foldl aggStep acc)).Nodup := by
  induction es with
  | nil => intro acc h; exact h
  | cons e es ih =>
    intro acc h
    rw [List.foldl_cons]
    apply ih
    cases hdur : e.durationSeconds with
    | none => simpa [aggStep, hdur] using h
    | some d =>
      by_cases hd : (0 : Int) < d
      · have : aggStep acc e = bump acc e.userId d := by simp [aggStep, hdur, hd]
        rw [this]
        exact nodup_keysOf_bump _ _ _ h
      · simpa [aggStep, hdur, hd] using h

theorem filter_listCompletedInRange (entries : List TimeEntry) (tFrom tTo : Time)
    (u : String) :
    (listCompletedInRange entries tFrom tTo).filter (fun e => e.userId == u && posDur e)
      = entries.filter (fun e => e.userId == u && contribInRange tFrom tTo e) := by
  unfold listCompletedInRange
  rw [List.filter_filter, List.filter_filter]
  apply List.filter_congr
  intro e _
  unfold contribInRange
  cases e.userId == u <;> cases decide (tFrom ≤ e.startTime) <;>
    cases decide (e.startTime ≤ tTo) <;> cases e.endTime != none <;> cases posDur e <;> rfl

theorem any_listCompletedInRange (entries : List TimeEntry) (tFrom tTo : Time)
    (u : String) :
    anyPos (listCompletedInRange entries tFrom tTo) u = hasContrib entries tFrom tTo u := by
  unfold anyPos listCompletedInRange hasContrib
  rw [List.any_filter, List.any_filter]
  congr 1
  funext e
  unfold contribInRange
  cases e.userId == u <;> cases decide (tFrom ≤ e.startTime) <;>
    cases decide (e.startTime ≤ tTo) <;> cases e.endTime != none <;> cases posDur e <;> rfl

theorem sumPos_listCompletedInRange (entries : List TimeEntry) (tFrom tTo : Time)
    (u : String) :
    sumPos (listCompletedInRange entries tFrom tTo) u = expectedTotal entries tFrom tTo u := by
  unfold sumPos expectedTotal
  rw [filter_listCompletedInRange]

theorem find?_map_replace (l : List TimeEntry) (id : String) (e e' : TimeEntry)
    (hl : l.find? (fun x => x.id == id) = some e) (hid : e'.id = e.id) :
    (l.map (fun x => if x.id == id then e' else x)).find? (fun x => x.id == id)
      = some e' := by
  induction l with
  | nil => simp at hl
  | cons a as ih =>
    rw [List.find?_cons] at hl
    cases ha : (a.id == id) with
    | true =>
      rw [ha] at hl
      have hae : a = e := by simpa using hl
      have he'id : (e'.id == id) = true := by
        rw [hid, ← hae]
        exact ha
      rw [List.map_cons, if_pos ha, List.find?_cons, he'id]
    | false =>
      rw [ha] at hl
      simp only [List.map_cons, ha, Bool.false_eq_true, if_false]
      rw [List.find?_cons, ha]
      exact ih hl

/-- Number of activities of a given type in a log. -/
def countType (l : List Activity) (ty : ActivityType) : Nat :=
  (l.filter (fun a => a.type == ty)).length

theorem countType_append (l1 l2 : List Activity) (ty : ActivityType) :
    countType (l1 ++ l2) ty = countType l1 ty + countType l2 ty := by
  simp [countType, List.filter_append]

theorem countType_createActivity (st : St) (taskId : String) (ty : ActivityType)
    (msg actor : String) (now : Time) (ty2 : ActivityType) :
    countType (createActivity st taskId ty msg actor now).2.activities ty2 =
      countType st.activities ty2 + (if ty = ty2 then 1 else 0) := by
  by_cases h : ty = ty2
  · simp [createActivity, genId, countType_append, countType, h]
  · have hb : (ty == ty2) = false := by simp [h]
    simp [createActivity, genId, countType_append, countType, h, hb]

theorem countType_emitIf (b : Bool) (st : St) (taskId : String) (ty : ActivityType)
    (msg actor : String) (now : Time) (ty2 : ActivityType) :
    countType (emitIf b st taskId ty msg actor now).activities ty2 =
      countType st.activities ty2 + (if b = true ∧ ty = ty2 then 1 else 0) := by
  cases b with
  | true => simp [emitIf, countType_createActivity]
  | false => simp [emitIf]

theorem isActiveFor_of_findActive {st : St} {u : String} {e : TimeEntry}
    (h : findActiveByUser st u = some e) : e.userId = u ∧ e.endTime = none := by
  have := List.find?_some h
  simpa [isActiveFor] using this

theorem activities_updateTask (st : St) (id : String) (p : TaskPatch) (now : Time) :
    ((updateTask st id p now).2).activities = st.activities := by
  unfold updateTask
  cases h : findTask st id <;> simp

/-- Duration computed by a successful stop at `now`:
`floor((now - startTime) / 1000)`. -/
def stopDuration (e : TimeEntry) (now : Time) : Int :=
  (((now - e.startTime) / 1000 : Nat) : Int)

/-- The entry produced by a successful stop at `now`. -/
def stoppedEntry (e : TimeEntry) (now : Time) : TimeEntry :=
  { e with endTime := some now, durationSeconds := some (stopDuration e now), updatedAt := now }

/-- The TIMER_STOPPED activity logged by a successful stop at `now`. -/
def stopActivity (e : TimeEntry) (u : String) (now : Time) (freshId : String) : Activity :=
  { id := freshId, taskId := e.taskId, type := .TIMER_STOPPED,
    message := "Stopped timer (" ++ toString (stopDuration e now / 60) ++ "m "
      ++ toString (stopDuration e now % 60) ++ "s)",
    actorUserId := u, createdAt := now, updatedAt := now }

theorem stopTimeEntry_success_eq (st : St) (u id : String) (now : Time) (e : TimeEntry)
    (hfind : findTimeEntry st id = some e) (hown : e.userId = u)
    (hact : e.endTime = none) (hlt : e.startTime < now) :
    stopTimeEntry st u id now =
      (.ok (some (stoppedEntry e now)),
       { st with
          entries := st.entries.map (fun x => if x.id == id then stoppedEntry e now else x)
          activities := st.activities ++ [stopActivity e u now (toString st.nextId)]
          nextId := st.nextId + 1 }) := by
  have he' : st.entries.find? (fun x => x.id == id) = some e := hfind
  have hge : ¬ e.startTime ≥ now := Nat.not_le.mpr hlt
  simp [stopTimeEntry, hfind, hown, hact, computeDurationSeconds, ensureStartBeforeEnd, hge,
        updateTimeEntry, he', createActivity, genId, stoppedEntry, stopDuration, stopActivity,
        applyTimeEntryPatch]

theorem stopTimeEntry_none_eq (st : St) (u id : String) (now : Time)
    (h : findTimeEntry st id = none) : stopTimeEntry st u id now = (.ok none, st) := by
  simp [stopTimeEntry, h]

theorem stopTimeEntry_forbidden_eq (st : St) (u id : String) (now : Time) (e : TimeEntry)
    (he : findTimeEntry st id = some e) (hne : e.userId ≠ u) :
    stopTimeEntry st u id now =
      (.error (.forbidden "Forbidden: You can only stop your own time entries"), st) := by
  simp [stopTimeEntry, he, hne]

theorem stopTimeEntry_conflict_eq (st : St) (u id : String) (now : Time) (e : TimeEntry)
    (he : findTimeEntry st id = some e) (hown : e.userId = u) (hend : e.endTime ≠ none) :
    stopTimeEntry st u id now = (.error (.conflict "Time entry is already stopped"), st) := by
  simp [stopTimeEntry, he, hown, hend]

theorem stopTimeEntry_guard_eq (st : St) (u id : String) (now : Time) (e : TimeEntry)
    (he : findTimeEntry st id = some e) (hown : e.userId = u) (hend : e.endTime = none)
    (hge : now ≤ e.startTime) :
    stopTimeEntry st u id now =
      (.error (.validation "Start time must be before end time"), st) := by
  simp [stopTimeEntry, he, hown, hend, computeDurationSeconds, ensureStartBeforeEnd, hge]

/-- The entry created by a successful `startTimeEntry` at `now`. -/
def startedEntry (taskId u : String) (now : Time) (freshId : String) : TimeEntry :=
  { id := freshId, taskId := taskId, userId := u, startTime := now,
    endTime := none, durationSeconds := none, createdAt := now, updatedAt := now }

/-- The TIMER_STARTED activity logged by a successful `startTimeEntry`. -/
def timerStartedActivity (taskId u : String) (now : Time) (freshId : String) : Activity :=
  { id := freshId, taskId := taskId, type := .TIMER_STARTED, message := "Started timer",
    actorUserId := u, createdAt := now, updatedAt := now }

/-- The TASK_STATUS_CHANGED activity logged by `completeTask`. -/
def taskCompletedActivity (taskId memberId : String) (now : Time) (freshId : String) : Activity :=
  { id := freshId, taskId := taskId, type := .TASK_STATUS_CHANGED, message := "Task completed",
    actorUserId := memberId, createdAt := now, updatedAt := now }

theorem startTimeEntry_notFound_eq (st : St) (u taskId : String) (now : Time)
    (h : findTask st taskId = none) :
    startTimeEntry st u taskId now = (.error (.notFound "Task not found"), st) := by
  simp [startTimeEntry, h]

theorem startTimeEntry_forbidden_eq (st : St) (u taskId : String) (now : Time) (task : Task)
    (htask : findTask st taskId = some task) (hne : task.assigneeUserId ≠ some u) :
    startTimeEntry st u taskId now =
      (.error (.forbidden "Forbidden: You can only start timer for tasks assigned to you"),
       st) := by
  simp [startTimeEntry, htask, hne]

theorem startTimeEntry_conflict_eq (st : St) (u taskId : String) (now : Time) (task : Task)
    (e : TimeEntry) (htask : findTask st taskId = some task)
    (hassign : task.assigneeUserId = some u) (hactive : findActiveByUser st u = some e) :
    startTimeEntry st u taskId now =
      (.error (.conflict "You already have an active time entry. Please stop it first."),
       st) := by
  simp [startTimeEntry, htask, hassign, hactive]

theorem startTimeEntry_success_eq (st : St) (u taskId : String) (now : Time) (task : Task)
    (htask : findTask st taskId = some task) (hassign : task.assigneeUserId = some u)
    (hactive : findActiveByUser st u = none) :
    startTimeEntry st u taskId now =
      (.ok (startedEntry taskId u now (toString st.nextId)),
       { st with
          entries := st.entries ++ [startedEntry taskId u now (toString st.nextId)]
          activities := st.activities ++
            [timerStartedActivity taskId u now (toString (st.nextId + 1))]
          nextId := st.nextId + 1 + 1 }) := by
  simp [startTimeEntry, htask, hassign, hactive, genId, createActivity,
        startedEntry, timerStartedActivity]

/-! Sample fixtures used by the concrete witnesses and counterexamples. -/

/-- A task assigned to member "u". -/
def wTask : Task :=
  { id := "t1", title := "T", description := "D", status := .TODO,
    createdByAdminId := "a", assigneeUserId := some "u", priority := .MEDIUM,
    dueDate := some 5, tags := ["x"], createdAt := 0, updatedAt := 0 }

/-- An Active time entry of member "u" on task "t1", started at t = 1000 ms. -/
def wActive : TimeEntry :=
  { id := "e1", taskId := "t1", userId := "u", startTime := 1000,
    endTime := none, durationSeconds := none, createdAt := 1000, updatedAt := 1000 }

/-- Store holding `wTask` and `wActive`. -/
def wSt : St :=
  { tasks := [wTask], entries := [wActive], comments := [], activities := [], nextId := 0 }

/-- A Stopped entry of member "u" on task "t1". -/
def wStopped : TimeEntry :=
  { id := "e1", taskId := "t1", userId := "u", startTime := 1000,
    endTime := some 2000, durationSeconds := some 1, createdAt := 1000, updatedAt := 2000 }

/-- Store holding `wTask` and the already-stopped `wStopped`. -/
def wStStopped : St :=
  { tasks := [wTask], entries := [wStopped], comments := [], activities := [], nextId := 0 }

/-! Claim theorems. -/

/-- C2: `stopTimeEntry(userId, timeEntryId)` returns `null` without error
when no entry has that id; throws ForbiddenError when the entry belongs to
another user; throws ConflictError "Time entry is already stopped" when it
is already Stopped; and once those precondition checks pass, the only
remaining failure is the start-before-end ValidationError raised inside the
stop computation itself — with a sane clock the stop succeeds.  The five
cases are exhaustive, so the three listed outcomes are the only failure
modes before the stop is applied. -/
theorem stopTimeEntry_failure_modes (st : St) (u id : String) (now : Time) :
    (findTimeEntry st id = none → stopTimeEntry st u id now = (.ok none, st)) ∧
    (∀ e, findTimeEntry st id = some e → e.userId ≠ u →
      stopTimeEntry st u id now =
        (.error (.forbidden "Forbidden: You can only stop your own time entries"), st)) ∧
    (∀ e, findTimeEntry st id = some e → e.userId = u → e.endTime ≠ none →
      stopTimeEntry st u id now = (.error (.conflict "Time entry is already stopped"), st)) ∧
    (∀ e, findTimeEntry st id = some e → e.userId = u → e.endTime = none →
      now ≤ e.startTime →
      stopTimeEntry st u id now =
        (.error (.validation "Start time must be before end time"), st)) ∧
    (∀ e, findTimeEntry st id = some e → e.userId = u → e.endTime = none →
      e.startTime < now →
      ∃ u' st', stopTimeEntry st u id now = (.ok (some u'), st')) := by
  refine ⟨?_, ?_, ?_, ?_, ?_⟩
  · intro h
    exact stopTimeEntry_none_eq st u id now h
  · intro e he hne
    exact stopTimeEntry_forbidden_eq st u id now e he hne
  · intro e he hown hend
    exact stopTimeEntry_conflict_eq st u id now e he hown hend
  · intro e he hown hend hge
    exact stopTimeEntry_guard_eq st u id now e he hown hend hge
  · intro e he hown hend hlt
    exact ⟨_, _, stopTimeEntry_success_eq st u id now e he hown hend hlt⟩

/-- Witness for C2: on the sample store, stopping someone else's entry is
forbidden and the store is untouched. -/
theorem stopTimeEntry_failure_modes_witness :
    stopTimeEntry wSt "v" "e1" 2000 =
      (.error (.forbidden "Forbidden: You can only stop your own time entries"), wSt) :=
  (stopTimeEntry_failure_modes wSt "v" "e1" 2000).2.1 wActive (by decide) (by decide)

/-- C3: stopping an Active entry with start time T0 at server time T1
yields, when T0 < T1, a stored entry with `durationSeconds =
floor((T1 - T0) / 1000)` — a non-negative integer — and `endTime = T1` set
together with it; when T0 >= T1 the stop fails with ValidationError
"Start time must be before end time" and the store is unchanged. -/
theorem stopTimeEntry_duration_correct (st : St) (u id : String) (now : Time) (e : TimeEntry)
    (hfind : findTimeEntry st id = some e) (hown : e.userId = u) (hact : e.endTime = none) :
    (e.startTime < now →
      ∃ u' st', stopTimeEntry st u id now = (.ok (some u'), st') ∧
        u'.durationSeconds = some (((now - e.startTime) / 1000 : Nat) : Int) ∧
        u'.endTime = some now ∧
        (0 : Int) ≤ (((now - e.startTime) / 1000 : Nat) : Int) ∧
        findTimeEntry st' id = some u') ∧
    (now ≤ e.startTime →
      stopTimeEntry st u id now =
        (.error (.validation "Start time must be before end time"), st)) := by
  constructor
  · intro hlt
    refine ⟨stoppedEntry e now, _,
      stopTimeEntry_success_eq st u id now e hfind hown hact hlt, rfl, rfl, ?_, ?_⟩
    · exact Int.ofNat_nonneg _
    · exact find?_map_replace st.entries id e (stoppedEntry e now) hfind rfl
  · intro hge
    exact stopTimeEntry_guard_eq st u id now e hfind hown hact hge

/-- Witness for C3: stopping the sample entry (started at 1000 ms) at
95000 ms stores duration 94 s together with the end time. -/
theorem stopTimeEntry_duration_correct_witness :
    ∃ u' st', stopTimeEntry wSt "u" "e1" 95000 = (.ok (some u'), st') ∧
      u'.durationSeconds = some (((95000 - wActive.startTime) / 1000 : Nat) : Int) ∧
      u'.endTime = some 95000 ∧
      (0 : Int) ≤ (((95000 - wActive.startTime) / 1000 : Nat) : Int) ∧
      findTimeEntry st' "e1" = some u' :=
  (stopTimeEntry_duration_correct wSt "u" "e1" 95000 wActive (by decide) rfl rfl).1
    (by decide)

/-- C9: whenever `stopTimeEntry` throws (Forbidden, Conflict, or the
start-time ValidationError), the store is returned exactly as it was — no
entry updated, no activity appended; the entry update and the single
TIMER_STOPPED activity happen only on the success path. -/
theorem stopTimeEntry_error_frame (st : St) (u id : String) (now : Time) :
    (∀ err st', stopTimeEntry st u id now = (.error err, st') → st' = st) ∧
    (∀ u' st', stopTimeEntry st u id now = (.ok (some u'), st') →
      ∃ a, st'.activities = st.activities ++ [a] ∧ a.type = .TIMER_STOPPED ∧
        st'.entries = st.entries.map (fun x => if x.id == id then u' else x)) := by
  constructor
  · intro err st' h
    cases hfind : findTimeEntry st id with
    | none =>
      rw [stopTimeEntry_none_eq st u id now hfind] at h
      simp at h
    | some e =>
      by_cases hne : e.userId = u
      · by_cases hend : e.endTime = none
        · by_cases hlt : e.startTime < now
          · rw [stopTimeEntry_success_eq st u id now e hfind hne hend hlt] at h
            simp at h
          · rw [stopTimeEntry_guard_eq st u id now e hfind hne hend (Nat.le_of_not_lt hlt)] at h
            exact (congrArg Prod.snd h).symm
        · rw [stopTimeEntry_conflict_eq st u id now e hfind hne hend] at h
          exact (congrArg Prod.snd h).symm
      · rw [stopTimeEntry_forbidden_eq st u id now e hfind hne] at h
        exact (congrArg Prod.snd h).symm
  · intro u' st' h
    cases hfind : findTimeEntry st id with
    | none =>
      rw [stopTimeEntry_none_eq st u id now hfind] at h
      simp at h
    | some e =>
      by_cases hne : e.userId = u
      · by_cases hend : e.endTime = none
        · by_cases hlt : e.startTime < now
          · rw [stopTimeEntry_success_eq st u id now e hfind hne hend hlt] at h
            have h1 := congrArg Prod.fst h
            have h2 := congrArg Prod.snd h
            simp only at h1 h2
            have hu' : stoppedEntry e now = u' := by simpa using h1
            refine ⟨stopActivity e u now (toString st.nextId), ?_, rfl, ?_⟩
            · rw [← h2]
            · rw [← h2, hu']
          · rw [stopTimeEntry_guard_eq st u id now e hfind hne hend (Nat.le_of_not_lt hlt)] at h
            simp at h
        · rw [stopTimeEntry_conflict_eq st u id now e hfind hne hend] at h
          simp at h
      · rw [stopTimeEntry_forbidden_eq st u id now e hfind hne] at h
        simp at h

/-- Witness for C9: stopping an already-stopped entry on a concrete store
throws and leaves the store exactly as it was. -/
theorem stopTimeEntry_error_frame_witness :
    wStStopped = wStStopped ∧
    stopTimeEntry wStStopped "u" "e1" 3000 =
      (.error (.conflict "Time entry is already stopped"), wStStopped) := by
  have h : stopTimeEntry wStStopped "u" "e1" 3000 =
      (.error (.conflict "Time entry is already stopped"), wStStopped) := by decide
  exact ⟨(stopTimeEntry_error_frame wStStopped "u" "e1" 3000).1
    (.conflict "Time entry is already stopped") wStStopped h, h⟩

/-- Store holding only `wTask` (no time entries yet). -/
def wStNoEntry : St :=
  { tasks := [wTask], entries := [], comments := [], activities := [], nextId := 0 }

/-- C1 (amended): the preconditions of `startTimeEntry` are checked in
order — missing task gives NotFoundError "Task not found", then a
non-matching (or null) assignee gives ForbiddenError, then an existing
Active entry of the user gives ConflictError — and on success the created
entry has `endTime = null` and `durationSeconds = null`.  After a
successful start, a second `startTimeEntry` by the same user never
succeeds; it fails with ConflictError whenever the second task exists and
is assigned to the user (when the task lookup or the assignee check fails,
that earlier error fires instead). -/
theorem startTimeEntry_checks (st : St) (u taskId : String) (now : Time) :
    (findTask st taskId = none →
      startTimeEntry st u taskId now = (.error (.notFound "Task not found"), st)) ∧
    (∀ task, findTask st taskId = some task → task.assigneeUserId ≠ some u →
      startTimeEntry st u taskId now =
        (.error (.forbidden "Forbidden: You can only start timer for tasks assigned to you"),
         st)) ∧
    (∀ task e, findTask st taskId = some task → task.assigneeUserId = some u →
      findActiveByUser st u = some e →
      startTimeEntry st u taskId now =
        (.error (.conflict "You already have an active time entry. Please stop it first."),
         st)) ∧
    (∀ task, findTask st taskId = some task → task.assigneeUserId = some u →
      findActiveByUser st u = none →
      ∃ e st', startTimeEntry st u taskId now = (.ok e, st') ∧
        e.endTime = none ∧ e.durationSeconds = none ∧ e.userId = u ∧ e.taskId = taskId) ∧
    (∀ e st', startTimeEntry st u taskId now = (.ok e, st') →
      (∀ t2 now2 r st'', startTimeEntry st' u t2 now2 = (.ok r, st'') → False) ∧
      (∀ t2 now2 task2, findTask st' t2 = some task2 → task2.assigneeUserId = some u →
        startTimeEntry st' u t2 now2 =
          (.error (.conflict "You already have an active time entry. Please stop it first."),
           st'))) := by
  refine ⟨?_, ?_, ?_, ?_, ?_⟩
  · intro h
    exact startTimeEntry_notFound_eq st u taskId now h
  · intro task htask hne
    exact startTimeEntry_forbidden_eq st u taskId now task htask hne
  · intro task e htask hassign hactive
    exact startTimeEntry_conflict_eq st u taskId now task e htask hassign hactive
  · intro task htask hassign hactive
    exact ⟨_, _, startTimeEntry_success_eq st u taskId now task htask hassign hactive,
      rfl, rfl, rfl, rfl⟩
  · intro e st' h
    cases htask : findTask st taskId with
    | none =>
      rw [startTimeEntry_notFound_eq st u taskId now htask] at h
      simp at h
    | some task =>
      by_cases hassign : task.assigneeUserId = some u
      · cases hactive : findActiveByUser st u with
        | some e0 =>
          rw [startTimeEntry_conflict_eq st u taskId now task e0 htask hassign hactive] at h
          simp at h
        | none =>
          rw [startTimeEntry_success_eq st u taskId now task htask hassign hactive] at h
          have hst' := congrArg Prod.snd h
          simp only at hst'
          have hactive' :
              findActiveByUser st' u = some (startedEntry taskId u now (toString st.nextId)) := by
            rw [← hst']
            have hraw : st.entries.find? (isActiveFor u) = none := hactive
            simp [findActiveByUser, List.find?_append, hraw, isActiveFor, startedEntry]
          constructor
          · intro t2 now2 r st'' hsucc
            cases htask2 : findTask st' t2 with
            | none =>
              rw [startTimeEntry_notFound_eq st' u t2 now2 htask2] at hsucc
              simp at hsucc
            | some task2 =>
              by_cases hassign2 : task2.assigneeUserId = some u
              · rw [startTimeEntry_conflict_eq st' u t2 now2 task2 _ htask2 hassign2
                  hactive'] at hsucc
                simp at hsucc
              · rw [startTimeEntry_forbidden_eq st' u t2 now2 task2 htask2 hassign2] at hsucc
                simp at hsucc
          · intro t2 now2 task2 htask2 hassign2
            exact startTimeEntry_conflict_eq st' u t2 now2 task2 _ htask2 hassign2 hactive'
      · rw [startTimeEntry_forbidden_eq st u taskId now task htask hassign] at h
        simp at h

/-- Witness for C1: on the sample store, a second start by the same user on
the same (existing, assigned) task fails with the single-active-entry
ConflictError. -/
theorem startTimeEntry_checks_witness :
    startTimeEntry (startTimeEntry wStNoEntry "u" "t1" 1000).2 "u" "t1" 2000 =
      (.error (.conflict "You already have an active time entry. Please stop it first."),
       (startTimeEntry wStNoEntry "u" "t1" 1000).2) := by
  have h5 := (startTimeEntry_checks wStNoEntry "u" "t1" 1000).2.2.2.2
    (startedEntry "t1" "u" 1000 "0") (startTimeEntry wStNoEntry "u" "t1" 1000).2 (by decide)
  exact h5.2 "t1" 2000 wTask (by decide) (by decide)

/-- Counterexample for C1 as stated: after a successful start, a second
`startTimeEntry` on an id with no task fails with NotFoundError "Task not
found", not with ConflictError. -/
theorem startTimeEntry_secondStart_counterexample :
    (startTimeEntry wStNoEntry "u" "t1" 1000).1 =
      .ok (startedEntry "t1" "u" 1000 "0") ∧
    (startTimeEntry (startTimeEntry wStNoEntry "u" "t1" 1000).2 "u" "t2" 2000).1 =
      .error (.notFound "Task not found") ∧
    (startTimeEntry (startTimeEntry wStNoEntry "u" "t1" 1000).2 "u" "t2" 2000).1 ≠
      .error (.conflict "You already have an active time entry. Please stop it first.") := by
  decide

/-- C4: `completeTask` fails with NotFoundError on a missing task,
ForbiddenError when the member is not the assignee; otherwise, when the
member's Active entry is on this task it is stopped first (duration as in
§4.2) and returned together with the task now in status DONE, and when
there is no matching Active entry the returned stopped entry is null; in
both success cases exactly one TASK_STATUS_CHANGED activity with message
"Task completed" is emitted (after the TIMER_STOPPED one when a stop
happened). -/
theorem completeTask_spec (st : St) (taskId memberId : String) (now : Time) :
    (findTask st taskId = none →
      completeTask st taskId memberId now = (.error (.notFound "Task not found"), st)) ∧
    (∀ task, findTask st taskId = some task → task.assigneeUserId ≠ some memberId →
      completeTask st taskId memberId now =
        (.error (.forbidden "Forbidden: You can only complete tasks assigned to you"), st)) ∧
    (∀ task e, findTask st taskId = some task → task.assigneeUserId = some memberId →
      findActiveByUser st memberId = some e → e.taskId = taskId →
      findTimeEntry st e.id = some e → e.startTime < now →
      ∃ task' st', completeTask st taskId memberId now =
          (.ok (task', some (stoppedEntry e now)), st') ∧
        task'.status = .DONE ∧
        (stoppedEntry e now).endTime = some now ∧
        (stoppedEntry e now).durationSeconds = some (stopDuration e now) ∧
        (∃ a1 a2, st'.activities = st.activities ++ [a1, a2] ∧
          a1.type = .TIMER_STOPPED ∧
          a2.type = .TASK_STATUS_CHANGED ∧ a2.message = "Task completed") ∧
        countType st'.activities .TASK_STATUS_CHANGED =
          countType st.activities .TASK_STATUS_CHANGED + 1) ∧
    (∀ task, findTask st taskId = some task → task.assigneeUserId = some memberId →
      findActiveByUser st memberId = none →
      ∃ task' st', completeTask st taskId memberId now = (.ok (task', none), st') ∧
        task'.status = .DONE ∧
        (∃ a, st'.activities = st.activities ++ [a] ∧
          a.type = .TASK_STATUS_CHANGED ∧ a.message = "Task completed") ∧
        countType st'.activities .TASK_STATUS_CHANGED =
          countType st.activities .TASK_STATUS_CHANGED + 1) ∧
    (∀ task e, findTask st taskId = some task → task.assigneeUserId = some memberId →
      findActiveByUser st memberId = some e → e.taskId ≠ taskId →
      ∃ task' st', completeTask st taskId memberId now = (.ok (task', none), st') ∧
        task'.status = .DONE ∧
        (∃ a, st'.activities = st.activities ++ [a] ∧
          a.type = .TASK_STATUS_CHANGED ∧ a.message = "Task completed") ∧
        countType st'.activities .TASK_STATUS_CHANGED =
          countType st.activities .TASK_STATUS_CHANGED + 1) := by
  refine ⟨?_, ?_, ?_, ?_, ?_⟩
  · intro h
    simp [completeTask, h]
  · intro task htask hne
    simp [completeTask, htask, hne]
  · intro task e htask hassign hactive hmatch hfe hlt
    obtain ⟨hown, hend⟩ := isActiveFor_of_findActive hactive
    have hstop := stopTimeEntry_success_eq st memberId e.id now e hfe hown hend hlt
    have htask' : st.tasks.find? (fun t => t.id == taskId) = some task := htask
    refine ⟨applyTaskPatch task { status := some .DONE } now,
      { st with
        tasks := st.tasks.map
          (fun x => if x.id == taskId then applyTaskPatch task { status := some .DONE } now else x)
        entries := st.entries.map (fun x => if x.id == e.id then stoppedEntry e now else x)
        activities := st.activities ++
          [stopActivity e memberId now (toString st.nextId),
           taskCompletedActivity taskId memberId now (toString (st.nextId + 1))]
        nextId := st.nextId + 1 + 1 },
      ?_, rfl, rfl, rfl,
      ⟨stopActivity e memberId now (toString st.nextId),
       taskCompletedActivity taskId memberId now (toString (st.nextId + 1)),
       rfl, rfl, rfl, rfl⟩, ?_⟩
    · simp [completeTask, htask, hassign, getActiveTimeEntry, hactive, hmatch, hstop,
            updateTask, findTask, htask', createActivity, genId, taskCompletedActivity]
    · simp [countType, List.filter_append, stopActivity, taskCompletedActivity]
  · intro task htask hassign hactive
    have htask' : st.tasks.find? (fun t => t.id == taskId) = some task := htask
    refine ⟨applyTaskPatch task { status := some .DONE } now,
      { st with
        tasks := st.tasks.map
          (fun x => if x.id == taskId then applyTaskPatch task { status := some .DONE } now else x)
        activities := st.activities ++
          [taskCompletedActivity taskId memberId now (toString st.nextId)]
        nextId := st.nextId + 1 },
      ?_, rfl,
      ⟨taskCompletedActivity taskId memberId now (toString st.nextId), rfl, rfl, rfl⟩, ?_⟩
    · simp [completeTask, htask, hassign, getActiveTimeEntry, hactive,
            updateTask, findTask, htask', createActivity, genId, taskCompletedActivity]
    · simp [countType, List.filter_append, taskCompletedActivity]
  · intro task e htask hassign hactive hne
    have hne' : (e.taskId == taskId) = false := by simp [hne]
    have htask' : st.tasks.find? (fun t => t.id == taskId) = some task := htask
    refine ⟨applyTaskPatch task { status := some .DONE } now,
      { st with
        tasks := st.tasks.map
          (fun x => if x.id == taskId then applyTaskPatch task { status := some .DONE } now else x)
        activities := st.activities ++
          [taskCompletedActivity taskId memberId now (toString st.nextId)]
        nextId := st.nextId + 1 },
      ?_, rfl,
      ⟨taskCompletedActivity taskId memberId now (toString st.nextId), rfl, rfl, rfl⟩, ?_⟩
    · simp [completeTask, htask, hassign, getActiveTimeEntry, hactive, hne',
            updateTask, findTask, htask', createActivity, genId, taskCompletedActivity]
    · simp [countType, List.filter_append, taskCompletedActivity]

/-- Witness for C4: completing task "t1" while its timer is running stops
the entry (duration 94 s) and marks the task DONE with one "Task completed"
activity. -/
theorem completeTask_spec_witness :
    ∃ task' st', completeTask wSt "t1" "u" 95000 =
        (.ok (task', some (stoppedEntry wActive 95000)), st') ∧
      task'.status = .DONE ∧
      (stoppedEntry wActive 95000).endTime = some 95000 ∧
      (stoppedEntry wActive 95000).durationSeconds = some (stopDuration wActive 95000) ∧
      (∃ a1 a2, st'.activities = wSt.activities ++ [a1, a2] ∧
        a1.type = .TIMER_STOPPED ∧
        a2.type = .TASK_STATUS_CHANGED ∧ a2.message = "Task completed") ∧
      countType st'.activities .TASK_STATUS_CHANGED =
        countType wSt.activities .TASK_STATUS_CHANGED + 1 :=
  (completeTask_spec wSt "t1" "u" 95000).2.2.1 wTask wActive
    (by decide) (by decide) (by decide) (by decide) (by decide) (by decide)

/-- C10: when the member's Active entry belongs to a different task,
`completeTask` leaves the time-entry store entirely unchanged (the entry
stays Active), returns a null stopped entry, and still sets the task status
to DONE. -/
theorem completeTask_nonMatching_frame (st : St) (taskId memberId : String) (now : Time)
    (task : Task) (e : TimeEntry)
    (htask : findTask st taskId = some task) (hassign : task.assigneeUserId = some memberId)
    (hactive : findActiveByUser st memberId = some e) (hne : e.taskId ≠ taskId) :
    ∃ task' st', completeTask st taskId memberId now = (.ok (task', none), st') ∧
      st'.entries = st.entries ∧
      findActiveByUser st' memberId = some e ∧
      task'.status = .DONE := by
  have hne' : (e.taskId == taskId) = false := by simp [hne]
  have htask' : st.tasks.find? (fun t => t.id == taskId) = some task := htask
  refine ⟨applyTaskPatch task { status := some .DONE } now,
    { st with
      tasks := st.tasks.map
        (fun x => if x.id == taskId then applyTaskPatch task { status := some .DONE } now else x)
      activities := st.activities ++
        [taskCompletedActivity taskId memberId now (toString st.nextId)]
      nextId := st.nextId + 1 },
    ?_, rfl, ?_, rfl⟩
  · simp [completeTask, htask, hassign, getActiveTimeEntry, hactive, hne',
          updateTask, findTask, htask', createActivity, genId, taskCompletedActivity]
  · exact hactive

/-- An Active entry of member "u" on a different task "t9". -/
def wActiveOther : TimeEntry :=
  { id := "e2", taskId := "t9", userId := "u", startTime := 1000,
    endTime := none, durationSeconds := none, createdAt := 1000, updatedAt := 1000 }

/-- Store holding `wTask` and the unrelated Active entry `wActiveOther`. -/
def wStOther : St :=
  { tasks := [wTask], entries := [wActiveOther], comments := [], activities := [], nextId := 0 }

/-- Witness for C10: completing "t1" while the running timer is on "t9"
leaves the entry untouched and Active, returns null, and marks "t1" DONE. -/
theorem completeTask_nonMatching_frame_witness :
    ∃ task' st', completeTask wStOther "t1" "u" 95000 = (.ok (task', none), st') ∧
      st'.entries = wStOther.entries ∧
      findActiveByUser st' "u" = some wActiveOther ∧
      task'.status = .DONE :=
  completeTask_nonMatching_frame wStOther "t1" "u" 95000 wTask wActiveOther
    (by decide) (by decide) (by decide) (by decide)

/-- C5 (amended): for every successful `updateTaskAsAdmin`, the
TASK_STATUS_CHANGED, TASK_ASSIGNED, TASK_PRIORITY_CHANGED and
TASK_TAGS_CHANGED activities are emitted if and only if the patched value
differs from the prior one (tags compared as full ordered lists,
order-sensitively), but a TASK_DUE_DATE_CHANGED activity is emitted
whenever `dueDate` is present in the patch, even when it equals the prior
value. -/
theorem updateTaskAsAdmin_activity_emission (st : St) (taskId : String) (patch : TaskPatch)
    (actor : String) (now : Time) (existing : Task)
    (hfind : findTask st taskId = some existing) :
    ∃ st', updateTaskAsAdmin st taskId patch actor now =
        (.ok (some (applyTaskPatch existing patch now)), st') ∧
      countType st'.activities .TASK_STATUS_CHANGED =
        countType st.activities .TASK_STATUS_CHANGED +
          (if statusChanged patch existing then 1 else 0) ∧
      countType st'.activities .TASK_ASSIGNED =
        countType st.activities .TASK_ASSIGNED +
          (if assigneeChanged patch existing then 1 else 0) ∧
      countType st'.activities .TASK_PRIORITY_CHANGED =
        countType st.activities .TASK_PRIORITY_CHANGED +
          (if priorityChanged patch existing then 1 else 0) ∧
      countType st'.activities .TASK_DUE_DATE_CHANGED =
        countType st.activities .TASK_DUE_DATE_CHANGED +
          (if patch.dueDate.isSome then 1 else 0) ∧
      countType st'.activities .TASK_TAGS_CHANGED =
        countType st.activities .TASK_TAGS_CHANGED +
          (if tagsChanged patch existing then 1 else 0) := by
  have htask' : st.tasks.find? (fun t => t.id == taskId) = some existing := hfind
  refine ⟨emitIf (tagsChanged patch existing)
      (emitIf patch.dueDate.isSome
        (emitIf (priorityChanged patch existing)
          (emitIf (assigneeChanged patch existing)
            (emitIf (statusChanged patch existing)
              (updateTask st taskId patch now).2
              taskId .TASK_STATUS_CHANGED
              ("Status changed to " ++ statusString (patch.status.getD existing.status))
              actor now)
            taskId .TASK_ASSIGNED (assigneeMsg (patch.assigneeUserId.getD none)) actor now)
          taskId .TASK_PRIORITY_CHANGED
          ("Priority changed to " ++ priorityString (patch.priority.getD existing.priority))
          actor now)
        taskId .TASK_DUE_DATE_CHANGED (dueDateMsg (patch.dueDate.getD none)) actor now)
      taskId .TASK_TAGS_CHANGED "Tags updated" actor now,
    ?_, ?_, ?_, ?_, ?_, ?_⟩
  · simp [updateTaskAsAdmin, hfind, updateTask, findTask, htask']
  · simp [countType_emitIf, activities_updateTask]
  · simp [countType_emitIf, activities_updateTask]
  · simp [countType_emitIf, activities_updateTask]
  · simp [countType_emitIf, activities_updateTask]
  · simp [countType_emitIf, activities_updateTask]

/-- Witness for C5 (amended): a patch carrying only the unchanged due date
still emits exactly one TASK_DUE_DATE_CHANGED activity and nothing else. -/
theorem updateTaskAsAdmin_activity_emission_witness :
    ∃ st', updateTaskAsAdmin wStNoEntry "t1" { dueDate := some (some 5) } "a" 7 =
        (.ok (some (applyTaskPatch wTask { dueDate := some (some 5) } 7)), st') ∧
      countType st'.activities .TASK_STATUS_CHANGED =
        countType wStNoEntry.activities .TASK_STATUS_CHANGED +
          (if statusChanged { dueDate := some (some 5) } wTask then 1 else 0) ∧
      countType st'.activities .TASK_ASSIGNED =
        countType wStNoEntry.activities .TASK_ASSIGNED +
          (if assigneeChanged { dueDate := some (some 5) } wTask then 1 else 0) ∧
      countType st'.activities .TASK_PRIORITY_CHANGED =
        countType wStNoEntry.activities .TASK_PRIORITY_CHANGED +
          (if priorityChanged { dueDate := some (some 5) } wTask then 1 else 0) ∧
      countType st'.activities .TASK_DUE_DATE_CHANGED =
        countType wStNoEntry.activities .TASK_DUE_DATE_CHANGED +
          (if (TaskPatch.dueDate { dueDate := some (some 5) }).isSome then 1 else 0) ∧
      countType st'.activities .TASK_TAGS_CHANGED =
        countType wStNoEntry.activities .TASK_TAGS_CHANGED +
          (if tagsChanged { dueDate := some (some 5) } wTask then 1 else 0) :=
  updateTaskAsAdmin_activity_emission wStNoEntry "t1" { dueDate := some (some 5) } "a" 7 wTask
    (by decide)

/-- Counterexample for C5 as stated: patching `dueDate` with its current
value (no difference) still emits a TASK_DUE_DATE_CHANGED activity. -/
theorem updateTaskAsAdmin_dueDate_counterexample :
    wTask.dueDate = some 5 ∧
    countType wStNoEntry.activities .TASK_DUE_DATE_CHANGED = 0 ∧
    countType (updateTaskAsAdmin wStNoEntry "t1" { dueDate := some (some 5) } "a" 7).2.activities
      .TASK_DUE_DATE_CHANGED = 1 := by
  decide

/-- C6: `getTimeTotalsByUser(from, to)` fails with ValidationError exactly
when `from > to`; otherwise each user's total sums exactly the Stopped
entries with `startTime` in `[from, to]` inclusive and positive duration
(entries outside the range, still Active, or with null/zero duration
contribute nothing), a user appears in the totals exactly when such an
entry exists, and the totals are sorted by userId ascending with no
duplicate user. -/
theorem getTimeTotalsByUser_report (entries : List TimeEntry) (tFrom tTo : Time) :
    (tFrom > tTo →
      getTimeTotalsByUser entries tFrom tTo =
        .error (.validation
          "Invalid date range: \"from\" date must be before or equal to \"to\" date")) ∧
    (¬ tFrom > tTo →
      ∃ res, getTimeTotalsByUser entries tFrom tTo = .ok res ∧
        res.tFrom = tFrom ∧ res.tTo = tTo ∧
        (∀ u s, (u, s) ∈ res.totals ↔
          (hasContrib entries tFrom tTo u = true ∧ s = expectedTotal entries tFrom tTo u)) ∧
        res.totals.Pairwise (fun a b => strLe a.1 b.1 = true) ∧
        (keysOf res.totals).Nodup) := by
  constructor
  · intro h
    simp [getTimeTotalsByUser, h]
  · intro h
    have heq : getTimeTotalsByUser entries tFrom tTo =
        .ok { tFrom := tFrom, tTo := tTo,
              totals := sortLe (fun a b => strLe a.1 b.1)
                ((listCompletedInRange entries tFrom tTo).foldl aggStep []) } := by
      simp [getTimeTotalsByUser, h]
    have hnodupAgg :
        (keysOf ((listCompletedInRange entries tFrom tTo).foldl aggStep [])).Nodup :=
      nodup_keysOf_foldl_aggStep _ [] (by simp [keysOf])
    refine ⟨_, heq, rfl, rfl, ?_, ?_, ?_⟩
    · intro u s
      dsimp only
      rw [mem_sortLe, mem_iff_lookupU hnodupAgg, lookupU_foldl_aggStep, lookupU_nil]
      dsimp only
      rw [any_listCompletedInRange entries tFrom tTo u, sumPos_listCompletedInRange]
      by_cases hc : hasContrib entries tFrom tTo u = true
      · simp [hc, eq_comm]
      · simp [hc]
    · dsimp only
      exact pairwise_sortLe strLe_total strLe_trans _
    · dsimp only
      exact ((perm_sortLe (fun a b => strLe a.1 b.1)
        ((listCompletedInRange entries tFrom tTo).foldl aggStep [])).map Prod.fst).nodup_iff.mpr
        hnodupAgg

/-- Sample entries for the report witness: two countable entries of "b" and
one of "a" inside the range, one Active entry, one zero-duration entry, one
entry outside the range. -/
def wReportEntries : List TimeEntry :=
  [{ id := "r1", taskId := "t", userId := "b", startTime := 5, endTime := some 9,
     durationSeconds := some 10, createdAt := 0, updatedAt := 0 },
   { id := "r2", taskId := "t", userId := "a", startTime := 6, endTime := some 9,
     durationSeconds := some 3, createdAt := 0, updatedAt := 0 },
   { id := "r3", taskId := "t", userId := "b", startTime := 7, endTime := some 9,
     durationSeconds := some 2, createdAt := 0, updatedAt := 0 },
   { id := "r4", taskId := "t", userId := "b", startTime := 7, endTime := none,
     durationSeconds := some 2, createdAt := 0, updatedAt := 0 },
   { id := "r5", taskId := "t", userId := "c", startTime := 7, endTime := some 9,
     durationSeconds := some 0, createdAt := 0, updatedAt := 0 },
   { id := "r6", taskId := "t", userId := "d", startTime := 50, endTime := some 99,
     durationSeconds := some 2, createdAt := 0, updatedAt := 0 }]

/-- Witness for C6: the report over `[5, 10]` on the sample entries. -/
theorem getTimeTotalsByUser_report_witness :
    ∃ res, getTimeTotalsByUser wReportEntries 5 10 = .ok res ∧
      res.tFrom = 5 ∧ res.tTo = 10 ∧
      (∀ u s, (u, s) ∈ res.totals ↔
        (hasContrib wReportEntries 5 10 u = true ∧ s = expectedTotal wReportEntries 5 10 u)) ∧
      res.totals.Pairwise (fun a b => strLe a.1 b.1 = true) ∧
      (keysOf res.totals).Nodup :=
  (getTimeTotalsByUser_report wReportEntries 5 10).2 (by decide)

theorem mem_of_stageStatus (f : TaskFilters) {t : Task} {l : List Task}
    (h : t ∈ stageStatus f l) : t ∈ l := by
  unfold stageStatus at h
  cases hs : f.status with
  | none => rw [hs] at h; exact h
  | some s => rw [hs] at h; exact (List.mem_filter.mp h).1

theorem mem_of_stagePriority (f : TaskFilters) {t : Task} {l : List Task}
    (h : t ∈ stagePriority f l) : t ∈ l := by
  unfold stagePriority at h
  cases hs : f.priority with
  | none => rw [hs] at h; exact h
  | some p => rw [hs] at h; exact (List.mem_filter.mp h).1

theorem mem_of_stageTag (f : TaskFilters) {t : Task} {l : List Task}
    (h : t ∈ stageTag f l) : t ∈ l := by
  unfold stageTag at h
  cases hs : f.tag with
  | none => rw [hs] at h; exact h
  | some tg =>
    rw [hs] at h
    dsimp only at h
    by_cases htg : (tg == "") = true
    · rw [if_pos htg] at h; exact h
    · rw [if_neg htg] at h; exact (List.mem_filter.mp h).1

theorem mem_of_stageSearch (f : TaskFilters) {t : Task} {l : List Task}
    (h : t ∈ stageSearch f l) : t ∈ l := by
  unfold stageSearch at h
  cases hs : f.searchQuery with
  | none => rw [hs] at h; exact h
  | some q =>
    rw [hs] at h
    dsimp only at h
    by_cases hq : (q == "") = true
    · rw [if_pos hq] at h; exact h
    · rw [if_neg hq] at h; exact (List.mem_filter.mp h).1

theorem mem_of_stageSort (f : TaskFilters) {t : Task} {l : List Task}
    (h : t ∈ stageSort f l) : t ∈ l := by
  unfold stageSort at h
  cases hs : f.sortBy with
  | none => rw [hs] at h; exact h
  | some sb =>
    rw [hs] at h
    dsimp only at h
    cases ho : f.sortOrder with
    | none => rw [ho] at h; exact mem_sortLe.mp h
    | some so =>
      rw [ho] at h
      cases so with
      | asc => exact mem_sortLe.mp h
      | desc => exact mem_sortLe.mp h

theorem stageAssignee_scoped (f : TaskFilters) (a : String)
    (ha : f.assigneeUserId = some a) (hne : a ≠ "") {t : Task} {l : List Task}
    (h : t ∈ stageAssignee f l) : t.assigneeUserId = some a := by
  unfold stageAssignee at h
  rw [ha] at h
  dsimp only at h
  have hne' : ¬ ((a == "") = true) := by simp [hne]
  rw [if_neg hne'] at h
  have := (List.mem_filter.mp h).2
  simpa [beq_iff_eq] using this

theorem searchAndFilter_assignee_scoped (tasks : List Task) (f : TaskFilters) (a : String)
    (ha : f.assigneeUserId = some a) (hne : a ≠ "") :
    ∀ t ∈ searchAndFilter tasks f, t.assigneeUserId = some a := by
  intro t ht
  exact stageAssignee_scoped f a ha hne
    (mem_of_stageTag f (mem_of_stageSearch f (mem_of_stageSort f ht)))

/-- C7 (amended): for every non-empty memberId, every task returned by
`listTasksForMember(memberId, filters)` has `assigneeUserId == memberId`,
whatever filters the caller supplies — the filters can only narrow the
assignee-scoped set.  (For the empty-string memberId the repository's JS
truthiness test skips the assignee condition, see the counterexample.) -/
theorem listTasksForMember_scoped (tasks : List Task) (memberId : String)
    (filters : Option TaskFilters) (hm : memberId ≠ "") :
    ∀ t ∈ listTasksForMember tasks memberId filters, t.assigneeUserId = some memberId := by
  intro t ht
  cases filters with
  | none =>
    simp only [listTasksForMember, listByAssignee] at ht
    have := (List.mem_filter.mp ht).2
    simpa [beq_iff_eq] using this
  | some f =>
    by_cases hk : f.hasAnyKey = true
    · simp only [listTasksForMember, hk, if_true, Option.getD] at ht
      exact searchAndFilter_assignee_scoped tasks _ memberId rfl hm t ht
    · simp only [listTasksForMember, hk, Bool.false_eq_true, if_false, listByAssignee] at ht
      have := (List.mem_filter.mp ht).2
      simpa [beq_iff_eq] using this

/-- A task assigned to member "x" (not to "u" and not to ""). -/
def c7Task : Task :=
  { id := "t2", title := "T", description := "D", status := .TODO,
    createdByAdminId := "a", assigneeUserId := some "x", priority := .MEDIUM,
    dueDate := none, tags := [], createdAt := 0, updatedAt := 0 }

/-- Witness for C7 (amended): with the non-empty memberId "u" the listing
only returns tasks assigned to "u". -/
theorem listTasksForMember_scoped_witness :
    wTask.assigneeUserId = some "u" :=
  listTasksForMember_scoped [wTask, c7Task] "u" (some { status := some .TODO }) (by decide)
    wTask (by decide)

/-- Counterexample for C7 as stated: with the (falsy) empty-string memberId
and a non-empty filters object, the repository skips the assignee condition
and returns a task assigned to "x". -/
theorem listTasksForMember_empty_member_counterexample :
    listTasksForMember [c7Task] "" (some { status := some .TODO }) = [c7Task] ∧
    c7Task.assigneeUserId ≠ some "" := by
  decide

/-- C8 (amended): the `createComment` service itself performs no text
validation — whenever the task exists and the RBAC gate passes it accepts
every text, including text empty after trimming or over 2000 characters.
The non-empty-after-trim and length-at-most-2000 rules are enforced only by
the controller boundary check, whose rejection condition is exactly
"trimmed text empty or more than 2000 characters". -/
theorem createComment_no_service_validation :
    (∀ (st : St) (taskId userId : String) (role : Role) (text : String) (now : Time)
      (task : Task),
      findTask st taskId = some task →
      (role = .ADMIN ∨ task.assigneeUserId = some userId) →
      ∃ c st', createComment st taskId userId role text now = (.ok c, st') ∧
        c.text = text) ∧
    (∀ text, commentTextBoundaryOk text = false ↔
      ((jsTrim text).data.length = 0 ∨ 2000 < text.data.length)) := by
  constructor
  · intro st taskId userId role text now task hfind hrbac
    have hcond : ¬ (role ≠ Role.ADMIN ∧ task.assigneeUserId ≠ some userId) := by
      rcases hrbac with h | h <;> simp [h]
    refine ⟨{ id := toString st.nextId, taskId := taskId, userId := userId, text := text,
              createdAt := now, updatedAt := now },
      { st with
        comments := st.comments ++
          [{ id := toString st.nextId, taskId := taskId, userId := userId, text := text,
             createdAt := now, updatedAt := now }]
        activities := st.activities ++
          [{ id := toString (st.nextId + 1), taskId := taskId, type := .COMMENT_ADDED,
             message := "Added a comment", actorUserId := userId,
             createdAt := now, updatedAt := now }]
        nextId := st.nextId + 1 + 1 }, ?_, rfl⟩
    simp [createComment, hfind, hcond, genId, createActivity]
  · intro text
    simp [commentTextBoundaryOk]
    tauto

/-- Witness for C8 (amended): the service accepts the empty text. -/
theorem createComment_no_service_validation_witness :
    ∃ c st', createComment wStNoEntry "t1" "u" .MEMBER "" 5 = (.ok c, st') ∧ c.text = "" :=
  createComment_no_service_validation.1 wStNoEntry "t1" "u" .MEMBER "" 5 wTask
    (by decide) (Or.inr (by decide))

/-- Counterexample for C8 as stated: text " " is empty after trimming (the
boundary would reject it), yet the service creates the comment instead of
raising a ValidationError. -/
theorem createComment_service_accepts_blank_counterexample :
    (createComment wStNoEntry "t1" "u" .MEMBER " " 5).1 =
      .ok { id := "0", taskId := "t1", userId := "u", text := " ",
            createdAt := 5, updatedAt := 5 } ∧
    jsTrim " " = "" ∧ commentTextBoundaryOk " " = false := by
  decide

end TaskFlow
